import Mathlib

set_option maxRecDepth 100000

/-!
Verification development for the tax-distribution extraction pipeline
(`src/main.py`).  The page text handed to the pipeline is modelled as a
`List Char`; the PDF text acquisition step is an external collaborator and
out of scope.  Python floats are modelled exactly: the source only parses
decimal literals and stores them (it never computes with them), so a parsed
number is represented as `Dec`, an integer numerator together with a
power-of-ten scale, and `Dec.toRat` gives its rational value.
-/

namespace TDP

/-- Whitespace class used by Python `str.strip` / regex `\s` for the
characters that can occur in extracted page text. -/
def isSpc (c : Char) : Bool :=
  c = ' ' || c = '\t' || c = '\n' || c = '\r' || c = Char.ofNat 11 || c = Char.ofNat 12

/-- Value of a decimal digit character, `none` for any other character. -/
def digit? (c : Char) : Option Nat :=
  if '0' ≤ c ∧ c ≤ '9' then some (c.toNat - 48) else none

/-- Accumulating parser for a run of decimal digit characters. -/
def parseNatAux (acc : Nat) : List Char → Option Nat
  | [] => some acc
  | c :: r =>
    match digit? c with
    | some d => parseNatAux (acc * 10 + d) r
    | none => none

/-- Parse a non-empty all-digit string as a natural number. -/
def parseNatDigits (l : List Char) : Option Nat :=
  if l = [] then none else parseNatAux 0 l

/-- Python `int(...)` restricted to the optional-sign decimal forms that can
reach it in this program. -/
def parseInt? (l : List Char) : Option Int :=
  match l with
  | [] => none
  | c :: r =>
    if c = '-' then (parseNatDigits r).map (fun n => -(n : Int))
    else if c = '+' then (parseNatDigits r).map (fun n => (n : Int))
    else (parseNatDigits (c :: r)).map (fun n => (n : Int))

/-- Exact decimal number: value `num / 10 ^ scale`.  Python `float` values in
the source are only ever parsed from decimal literals and stored, so this
representation is exact for every number the program handles. -/
structure Dec where
  num : Int
  scale : Nat
deriving DecidableEq

/-- Negation of a decimal number. -/
def Dec.neg (d : Dec) : Dec := ⟨-d.num, d.scale⟩

/-- Rational value of a decimal number. -/
def Dec.toRat (d : Dec) : ℚ := (d.num : ℚ) / 10 ^ d.scale

/-- Python `str.split(sep)` for a single-character separator: keeps empty
pieces, and the split of the empty string is `[[]]`. -/
def splitChar (sep : Char) : List Char → List (List Char)
  | [] => [[]]
  | c :: r =>
    if c = sep then [] :: splitChar sep r
    else
      match splitChar sep r with
      | [] => [[c]]
      | t :: ts => (c :: t) :: ts

/-- Python `str.strip()`: drop leading and trailing whitespace. -/
def trimChars (l : List Char) : List Char :=
  ((l.dropWhile isSpc).reverse.dropWhile isSpc).reverse

/-- Python `str.find`: index of the first occurrence of `pat`, as an
`Option` instead of the `-1` sentinel. -/
def findSub (pat : List Char) : List Char → Option Nat
  | [] => if pat = [] then some 0 else none
  | c :: r =>
    if pat.isPrefixOf (c :: r) then some 0
    else (findSub pat r).map (· + 1)

/-- Python `pat in s` substring test. -/
def hasSub (pat s : List Char) : Bool := (findSub pat s).isSome

/-- Python slice `s[a:b]` for non-negative bounds. -/
def slice (l : List Char) (a b : Nat) : List Char := (l.take b).drop a

/-- Worker for `collapseWs`; the flag records whether the previous character
was whitespace (i.e. we are inside a whitespace run already replaced). -/
def collapseAux : Bool → List Char → List Char
  | _, [] => []
  | prevWs, c :: r =>
    if isSpc c then
      if prevWs then collapseAux true r else ' ' :: collapseAux true r
    else c :: collapseAux false r

/-- Python `re.sub(r"\s+", " ", line)`: every maximal whitespace run becomes
a single space. -/
def collapseWs (l : List Char) : List Char := collapseAux false l

/-- Worker for `rmAdjDashes`: `prev` is the character preceding `c` in the
ORIGINAL string (the regex lookbehind examines the original text, and the
lookahead is the next character, which `re.sub` has not consumed). -/
def rmDashAux : Option Char → List Char → List Char
  | _, [] => []
  | prev, c :: r =>
    if c = '-' ∧ (prev = some '-' ∨ r.head? = some '-') then rmDashAux (some c) r
    else c :: rmDashAux (some c) r

/-- Python `re.sub(r"(?<=-)-|-(?=-)", "", section)`: the pattern matches a
single dash whose original neighbour (either side) is also a dash, and every
such position is deleted. -/
def rmAdjDashes (l : List Char) : List Char := rmDashAux none l

/-- Error raised by the number-coercion routine, naming the offending
(stripped) token. -/
inductive NumErr where
  | numberFormatError (tok : List Char) : NumErr
deriving DecidableEq

/-- Unsigned decimal literal parse: digits with at most one decimal point,
at least one digit in total (`"5."` and `".5"` are accepted, `"."` and `""`
are not), exactly as Python `float` treats these forms. -/
def parseUnsigned (l : List Char) : Option Dec :=
  match splitChar '.' l with
  | [ip] => (parseNatDigits ip).map (fun n => ⟨(n : Int), 0⟩)
  | [ip, fp] =>
    if ip = [] ∧ fp = [] then none
    else
      match (if ip = [] then some 0 else parseNatDigits ip),
            (if fp = [] then some 0 else parseNatDigits fp) with
      | some a, some b => some ⟨(a : Int) * 10 ^ fp.length + (b : Int), fp.length⟩
      | _, _ => none
  | _ => none

/-- Python `float(...)` on the decimal forms occurring in these documents:
optional single sign then an unsigned decimal literal.  (Exponent, `inf`,
`nan` and underscore forms never occur in this document vocabulary and are
not modelled.) -/
def parseFloat? (l : List Char) : Option Dec :=
  match l with
  | [] => none
  | c :: r =>
    if c = '-' then (parseUnsigned r).map Dec.neg
    else if c = '+' then parseUnsigned r
    else parseUnsigned (c :: r)

/-- `parse_number` from `src/main.py` lines 7-23: strip the token, and if it
contains a dash, remove every dash (Python `replace("-", "")`, i.e. a
filter), parse the remainder and negate; otherwise parse directly.  A parse
failure on the dash-stripped text raises an error naming the stripped
token. -/
def parse_number (t : List Char) : Except NumErr Dec :=
  let s := trimChars t
  if '-' ∈ s then
    match parseFloat? (s.filter (fun c => !(c = '-'))) with
    | some v => .ok v.neg
    | none => .error (.numberFormatError s)
  else
    match parseFloat? s with
    | some v => .ok v
    | none => .error (.numberFormatError s)

/-- Gregorian leap-year rule (as used by Python `datetime`). -/
def isLeap (y : Nat) : Bool := (y % 4 = 0 && !(y % 100 = 0)) || y % 400 = 0

/-- Number of days in a month (Python `datetime` calendar validation). -/
def daysInMonth (m y : Nat) : Nat :=
  if m = 2 then (if isLeap y then 29 else 28)
  else if m = 4 ∨ m = 6 ∨ m = 9 ∨ m = 11 then 30
  else 31

/-- A calendar date as produced by `datetime.strptime(tok, "%m/%d/%Y")`. -/
structure PDate where
  month : Nat
  day : Nat
  year : Nat
deriving DecidableEq

/-- Python `datetime.strptime(tok, "%m/%d/%Y")`: three slash-separated
digit groups, month and day of one or two digits, a four-digit year, and
calendar validity, else failure. -/
def parseDate (tok : List Char) : Option PDate :=
  match splitChar '/' tok with
  | [m, d, y] =>
    match parseNatDigits m, parseNatDigits d, parseNatDigits y with
    | some mv, some dv, some yv =>
      if m.length ≤ 2 ∧ d.length ≤ 2 ∧ y.length = 4 ∧
         1 ≤ mv ∧ mv ≤ 12 ∧ 1 ≤ dv ∧ dv ≤ daysInMonth mv yv ∧ 1 ≤ yv
      then some ⟨mv, dv, yv⟩ else none
    | _, _, _ => none
  | _ => none

/-- Failure modes of the extraction pipeline (spec §7 taxonomy; the source
raises `ValueError` with a distinguishing message at each of these sites). -/
inductive PErr where
  | structureError : PErr
  | formatError : PErr
  | fieldCountError (lineNo : Nat) (line : List Char) : PErr
  | fieldParseError (lineNo : Nat) (line : List Char) : PErr
  | emptyResultError : PErr
deriving DecidableEq

/-- One extracted ledger row (the dict built in `src/main.py` lines 95-111,
with the source's field names). -/
structure Row where
  START_DATE : PDate
  END_DATE : PDate
  YEAR : Int
  BEGINNING_TAX_BALANCE : Dec
  TAX_ADJUSTMENT : Dec
  BASE_TAX_COLLECTED : Dec
  REVERSALS : Dec
  NET_BASE_TAX_COLLECTED : Dec
  PERCENT_COLLECTED : Dec
  ENDING_TAX_BALANCE : Dec
  PROPERTY_AND_INSURANCE_COLLECTED : Dec
  PROPERTY_AND_INSURANCE_REVERSALS : Dec
  LOCAL_REAL_PROPERTY_COLLECTED : Dec
  OTHER_PENALTY_COLLECTED : Dec
  TOTAL_DISTRIBUTED : Dec
deriving DecidableEq

/-- Success test for a pipeline stage result. -/
def isOkE {ε α : Type} : Except ε α → Bool
  | .ok _ => true
  | .error _ => false

/-- Token `k` of the split line (`split[k]` in the source; the bound has
been checked before any access). -/
def getTok (toks : List (List Char)) (k : Nat) : List Char := toks.getD k []

/-- Coerce the fiscal-year token with `int(...)`; any failure inside the
`try` block surfaces as the field-parse error for this line. -/
def coerceYear (i : Nat) (line tok : List Char) : Except PErr Int :=
  match parseInt? tok with
  | some z => .ok z
  | none => .error (.fieldParseError (i + 1) line)

/-- Coerce a decimal token with `parse_number`; any failure inside the
`try` block surfaces as the field-parse error for this line. -/
def coerce (i : Nat) (line tok : List Char) : Except PErr Dec :=
  match parse_number tok with
  | .ok v => .ok v
  | .error _ => .error (.fieldParseError (i + 1) line)

/-- Row parser (`src/main.py` lines 90-116): split the normalized line on
single spaces, fail with the field-count error when fewer than 13 tokens
result, then coerce tokens 0-12 positionally (the first coercion failure
aborts, as the Python `try` block does). -/
def parseRow (i : Nat) (sd ed : PDate) (line : List Char) : Except PErr Row :=
  let toks := splitChar ' ' line
  if toks.length < 13 then .error (.fieldCountError (i + 1) line)
  else
    (coerceYear i line (getTok toks 0)).bind fun yr =>
    (coerce i line (getTok toks 1)).bind fun v1 =>
    (coerce i line (getTok toks 2)).bind fun v2 =>
    (coerce i line (getTok toks 3)).bind fun v3 =>
    (coerce i line (getTok toks 4)).bind fun v4 =>
    (coerce i line (getTok toks 5)).bind fun v5 =>
    (coerce i line (getTok toks 6)).bind fun v6 =>
    (coerce i line (getTok toks 7)).bind fun v7 =>
    (coerce i line (getTok toks 8)).bind fun v8 =>
    (coerce i line (getTok toks 9)).bind fun v9 =>
    (coerce i line (getTok toks 10)).bind fun v10 =>
    (coerce i line (getTok toks 11)).bind fun v11 =>
    (coerce i line (getTok toks 12)).bind fun v12 =>
    .ok ⟨sd, ed, yr, v1, v2, v3, v4, v5, v6, v7, v8, v9, v10, v11, v12⟩

/-- The row loop (`for i, line in enumerate(cleaned_lines)`): parse each
line with its index, aborting on the first failure. -/
def parseRows (sd ed : PDate) : Nat → List (List Char) → Except PErr (List Row)
  | _, [] => .ok []
  | i, l :: ls =>
    (parseRow i sd ed l).bind fun r =>
    (parseRows sd ed (i + 1) ls).bind fun rs =>
    .ok (r :: rs)

/-- Characters kept by the date-block cleaner
`re.sub(r"[^0-9/ ]", "", date_text)`. -/
def keepDateChar (c : Char) : Bool := c.isDigit || c = '/' || c = ' '

/-- Date extractor tokens: keep digits, slashes and spaces, split on
spaces, discard empty tokens (`filter(None, ...)`). -/
def dateTokens (s : List Char) : List (List Char) :=
  (splitChar ' ' (s.filter keepDateChar)).filter (fun t => !t.isEmpty)

/-- Marker string A delimiting the start of the data section. -/
def cdMark : List Char := "COLLECTED DISTRIBUTED".data

/-- Marker string B delimiting the end of the data section. -/
def entityMark : List Char := "ENTITY".data

/-- Marker opening the date-declaration block. -/
def fromMark : List Char := "FROM".data

/-- Marker closing the date-declaration block. -/
def yearFromMark : List Char := "YEAR FROM".data

/-- Footer fragment whose lines are discarded. -/
def totlMark : List Char := "TOTL".data

/-- Per-line normalization step of the section loop: strip, drop empty
lines and header/footer lines, collapse internal whitespace runs. -/
def cleanLine (l : List Char) : Option (List Char) :=
  let t := trimChars l
  if t.isEmpty then none
  else if hasSub cdMark t || hasSub totlMark t then none
  else some (collapseWs t)

/-- Section normalizer (`src/main.py` lines 73-86): remove dashes adjacent
to dashes, remove percent signs, strip, split into lines and clean each
line. -/
def sectionLines (text : List Char) (s e : Nat) : List (List Char) :=
  let sec := (rmAdjDashes (slice text s e)).filter (fun c => !(c = '%'))
  (splitChar '\n' (trimChars sec)).filterMap cleanLine

/-- Placeholder row used as the default of positional lookups in theorem
statements (never produced by the pipeline itself). -/
def defaultRow : Row :=
  ⟨⟨1, 1, 1⟩, ⟨1, 1, 1⟩, 0, ⟨0, 0⟩, ⟨0, 0⟩, ⟨0, 0⟩, ⟨0, 0⟩, ⟨0, 0⟩, ⟨0, 0⟩, ⟨0, 0⟩,
   ⟨0, 0⟩, ⟨0, 0⟩, ⟨0, 0⟩, ⟨0, 0⟩, ⟨0, 0⟩⟩

/-- The extraction pipeline of `parse_single_page_pdf` (`src/main.py`
lines 40-122), starting from the extracted page text (text acquisition is
the external collaborator).  Anchor location, date extraction, section
normalization, row parsing and the empty-result check, in source order. -/
def parse_single_page_pdf (text : List Char) : Except PErr (List Row) :=
  match findSub cdMark text, findSub entityMark text with
  | some s, some e =>
    if e ≤ s then .error .structureError
    else
      match findSub fromMark text, findSub yearFromMark text with
      | some f, some y =>
        if (dateTokens (slice text f y)).length < 2 then .error .formatError
        else
          match parseDate (getTok (dateTokens (slice text f y)) 0) with
          | none => .error .formatError
          | some d =>
            match parseRows d d 0 (sectionLines text s e) with
            | .error err => .error err
            | .ok rows => if rows.isEmpty then .error .emptyResultError else .ok rows
      | _, _ => .error .structureError
  | _, _ => .error .structureError


/-- Fuel-driven big-endian digit rendering of a positive natural number. -/
def renderNatAux : Nat → Nat → List Char
  | 0, _ => []
  | fuel + 1, n => if n = 0 then [] else renderNatAux fuel (n / 10) ++ [Nat.digitChar (n % 10)]

/-- Modelled from the spec: decimal rendering of a natural number, as used
when formatting a record's fields back into a line (spec §8 round-trip;
the repository has no formatting routine under `src/`). -/
def renderNat (n : Nat) : List Char :=
  if n = 0 then ['0'] else renderNatAux (n + 1) n

/-- Left-pad a digit string with zeros to width `k`. -/
def padZeros (k : Nat) (l : List Char) : List Char :=
  List.replicate (k - l.length) '0' ++ l

/-- Digit rendering of an unsigned decimal magnitude with scale `s`. -/
def renderDecMag (m s : Nat) : List Char :=
  if s = 0 then renderNat m
  else renderNat (m / 10 ^ s) ++ '.' :: padZeros s (renderNat (m % 10 ^ s))

/-- Modelled from the spec: render a decimal number with its own scale as
digits, with a leading minus sign for negative values (spec §8: "including
for negative values rendered with a leading minus sign"). -/
def renderDec (d : Dec) : List Char :=
  if d.num < 0 then '-' :: renderDecMag d.num.natAbs d.scale
  else renderDecMag d.num.natAbs d.scale

/-- Modelled from the spec: render a signed integer (the fiscal year). -/
def renderInt (z : Int) : List Char :=
  if z < 0 then '-' :: renderNat z.natAbs else renderNat z.natAbs

/-- Join tokens with a single separator character (inverse of the row
split). -/
def joinChar (c : Char) : List (List Char) → List Char
  | [] => []
  | [t] => t
  | t :: ts => t ++ c :: joinChar c ts

/-- Modelled from the spec: format a record's fields back into a line in
the same token order used by the row parser (spec §8 round-trip bullet). -/
def renderRowLine (r : Row) : List Char :=
  joinChar ' ' [renderInt r.YEAR, renderDec r.BEGINNING_TAX_BALANCE, renderDec r.TAX_ADJUSTMENT,
    renderDec r.BASE_TAX_COLLECTED, renderDec r.REVERSALS, renderDec r.NET_BASE_TAX_COLLECTED,
    renderDec r.PERCENT_COLLECTED, renderDec r.ENDING_TAX_BALANCE,
    renderDec r.PROPERTY_AND_INSURANCE_COLLECTED, renderDec r.PROPERTY_AND_INSURANCE_REVERSALS,
    renderDec r.LOCAL_REAL_PROPERTY_COLLECTED, renderDec r.OTHER_PENALTY_COLLECTED,
    renderDec r.TOTAL_DISTRIBUTED]

lemma rmDashAux_prev (v : List Char) (p q : Option Char) (h : v.head? ≠ some '-') :
    rmDashAux p v = rmDashAux q v := by
  cases v with
  | nil => rfl
  | cons c r =>
    have hc : c ≠ '-' := by simpa using h
    simp [rmDashAux, hc]

lemma rmDashAux_append (u w : List Char) (p : Option Char) (h : u.getLast? ≠ some '-') :
    rmDashAux p (u ++ w) = rmDashAux p u ++ rmDashAux (u.getLast?.elim p some) w := by
  induction u generalizing p with
  | nil => simp [rmDashAux]
  | cons c u ih =>
    cases u with
    | nil =>
      have hc : c ≠ '-' := by simpa using h
      simp [rmDashAux, hc]
    | cons d u2 =>
      have h2 : (d :: u2).getLast? ≠ some '-' := by
        rwa [List.getLast?_cons_cons] at h
      have hih := ih (p := some c) h2
      obtain ⟨x, hx⟩ : ∃ x, (d :: u2).getLast? = some x := by
        cases hx : (d :: u2).getLast? with
        | none => simp [List.getLast?_eq_none_iff] at hx
        | some x => exact ⟨x, rfl⟩
      have e1 : rmDashAux p (c :: d :: u2 ++ w) =
          if c = '-' ∧ (p = some '-' ∨ some d = some '-') then rmDashAux (some c) (d :: u2 ++ w)
          else c :: rmDashAux (some c) (d :: u2 ++ w) := rfl
      have e2 : rmDashAux p (c :: d :: u2) =
          if c = '-' ∧ (p = some '-' ∨ some d = some '-') then rmDashAux (some c) (d :: u2)
          else c :: rmDashAux (some c) (d :: u2) := rfl
      have e3 : ((c :: d :: u2).getLast?).elim p some = ((d :: u2).getLast?).elim (some c) some := by
        rw [List.getLast?_cons_cons, hx]; rfl
      rw [e1, e2, e3]
      by_cases hc : c = '-' ∧ (p = some '-' ∨ some d = some '-')
      · rw [if_pos hc, if_pos hc, hih]
      · rw [if_neg hc, if_neg hc, hih, List.cons_append]

lemma rmDashAux_runSkip (v : List Char) : ∀ n, rmDashAux (some '-') (List.replicate n '-' ++ v) = rmDashAux (some '-') v := by
  intro n
  induction n with
  | zero => simp
  | succ m ih => simpa [rmDashAux] using ih

lemma rmDashAux_run (p : Option Char) (v : List Char) (n : Nat) (h2 : 2 ≤ n) :
    rmDashAux p (List.replicate n '-' ++ v) = rmDashAux (some '-') v := by
  obtain ⟨m, rfl⟩ : ∃ m, n = m + 2 := ⟨n - 2, by omega⟩
  have e0 : List.replicate (m + 2) '-' ++ v = '-' :: (List.replicate (m + 1) '-' ++ v) := by
    simp [List.replicate_succ]
  have e1 : rmDashAux p ('-' :: (List.replicate (m + 1) '-' ++ v)) =
      if ('-' : Char) = '-' ∧ (p = some '-' ∨ (List.replicate (m + 1) '-' ++ v).head? = some '-')
      then rmDashAux (some '-') (List.replicate (m + 1) '-' ++ v)
      else '-' :: rmDashAux (some '-') (List.replicate (m + 1) '-' ++ v) := rfl
  rw [e0, e1, if_pos ⟨rfl, Or.inr (by simp [List.replicate_succ])⟩, rmDashAux_runSkip]

lemma rmAdjDashes_run_removed (u v : List Char) (n : Nat) (h2 : 2 ≤ n)
    (hu : u.getLast? ≠ some '-') (hv : v.head? ≠ some '-') :
    rmAdjDashes (u ++ (List.replicate n '-' ++ v)) = rmAdjDashes u ++ rmAdjDashes v := by
  unfold rmAdjDashes
  rw [rmDashAux_append u _ none hu, rmDashAux_run _ _ _ h2, rmDashAux_prev v _ none hv]

lemma rmAdjDashes_lone_kept (u v : List Char)
    (hu : u.getLast? ≠ some '-') (hv : v.head? ≠ some '-') :
    rmAdjDashes (u ++ ('-' :: v)) = rmAdjDashes u ++ '-' :: rmAdjDashes v := by
  unfold rmAdjDashes
  rw [rmDashAux_append u _ none hu]
  have hp : (u.getLast?).elim (none : Option Char) some ≠ some '-' := by
    cases hx : u.getLast? with
    | none => simp
    | some x =>
      have : x ≠ '-' := by rw [hx] at hu; simpa using hu
      simpa using this
  have e1 : rmDashAux ((u.getLast?).elim (none : Option Char) some) ('-' :: v) =
      if ('-' : Char) = '-' ∧ ((u.getLast?).elim (none : Option Char) some = some '-' ∨ v.head? = some '-')
      then rmDashAux (some '-') v
      else '-' :: rmDashAux (some '-') v := rfl
  rw [e1, if_neg (by push_neg; intro _; exact ⟨hp, hv⟩), rmDashAux_prev v _ none hv]



lemma bind_ok_iff {α : Type} (x : Except PErr α) (f : α → Except PErr Row) (r : Row) :
    x.bind f = .ok r ↔ ∃ a, x = .ok a ∧ f a = .ok r := by
  cases x <;> simp [Except.bind]

lemma coerceYear_ok (i : Nat) (line tok : List Char) (z : Int) :
    coerceYear i line tok = .ok z ↔ parseInt? tok = some z := by
  unfold coerceYear
  cases h : parseInt? tok <;> simp

lemma coerce_ok (i : Nat) (line tok : List Char) (v : Dec) :
    coerce i line tok = .ok v ↔ parse_number tok = .ok v := by
  unfold coerce
  cases h : parse_number tok <;> simp

lemma parseRow_ok_iff (i : Nat) (sd ed : PDate) (line : List Char) (r : Row) :
    parseRow i sd ed line = .ok r ↔
      (13 ≤ (splitChar ' ' line).length ∧ sd = r.START_DATE ∧ ed = r.END_DATE ∧
       parseInt? (getTok (splitChar ' ' line) 0) = some r.YEAR ∧
       parse_number (getTok (splitChar ' ' line) 1) = .ok r.BEGINNING_TAX_BALANCE ∧
       parse_number (getTok (splitChar ' ' line) 2) = .ok r.TAX_ADJUSTMENT ∧
       parse_number (getTok (splitChar ' ' line) 3) = .ok r.BASE_TAX_COLLECTED ∧
       parse_number (getTok (splitChar ' ' line) 4) = .ok r.REVERSALS ∧
       parse_number (getTok (splitChar ' ' line) 5) = .ok r.NET_BASE_TAX_COLLECTED ∧
       parse_number (getTok (splitChar ' ' line) 6) = .ok r.PERCENT_COLLECTED ∧
       parse_number (getTok (splitChar ' ' line) 7) = .ok r.ENDING_TAX_BALANCE ∧
       parse_number (getTok (splitChar ' ' line) 8) = .ok r.PROPERTY_AND_INSURANCE_COLLECTED ∧
       parse_number (getTok (splitChar ' ' line) 9) = .ok r.PROPERTY_AND_INSURANCE_REVERSALS ∧
       parse_number (getTok (splitChar ' ' line) 10) = .ok r.LOCAL_REAL_PROPERTY_COLLECTED ∧
       parse_number (getTok (splitChar ' ' line) 11) = .ok r.OTHER_PENALTY_COLLECTED ∧
       parse_number (getTok (splitChar ' ' line) 12) = .ok r.TOTAL_DISTRIBUTED) := by
  obtain ⟨rS, rE, rY, r1, r2, r3, r4, r5, r6, r7, r8, r9, r10, r11, r12⟩ := r
  by_cases hlen : (splitChar ' ' line).length < 13
  · apply iff_of_false
    · simp [parseRow, hlen]
    · rintro ⟨hl, -⟩
      omega
  · unfold parseRow
    rw [if_neg hlen]
    simp only [bind_ok_iff, coerceYear_ok, coerce_ok]
    constructor
    · rintro ⟨yr, h0, v1, h1, v2, h2, v3, h3, v4, h4, v5, h5, v6, h6, v7, h7, v8, h8,
        v9, h9, v10, h10, v11, h11, v12, h12, hfin⟩
      injection hfin with hrow
      injection hrow with hS hE hY e1 e2 e3 e4 e5 e6 e7 e8 e9 e10 e11 e12
      subst hS; subst hE; subst hY
      subst e1; subst e2; subst e3; subst e4; subst e5; subst e6; subst e7; subst e8
      subst e9; subst e10; subst e11; subst e12
      exact ⟨Nat.le_of_not_lt hlen, rfl, rfl, h0, h1, h2, h3, h4, h5, h6, h7, h8, h9, h10, h11, h12⟩
    · rintro ⟨hl, hS, hE, h0, h1, h2, h3, h4, h5, h6, h7, h8, h9, h10, h11, h12⟩
      subst hS; subst hE
      exact ⟨rY, h0, r1, h1, r2, h2, r3, h3, r4, h4, r5, h5, r6, h6, r7, h7, r8, h8,
        r9, h9, r10, h10, r11, h11, r12, h12, rfl⟩



lemma parseRow_err_count (i : Nat) (sd ed : PDate) (line : List Char)
    (h : (splitChar ' ' line).length < 13) :
    parseRow i sd ed line = .error (.fieldCountError (i + 1) line) := by
  simp [parseRow, h]

lemma parseRow_err_parse (i : Nat) (sd ed : PDate) (line : List Char) (er : NumErr)
    (h13 : 13 ≤ (splitChar ' ' line).length)
    (h3 : parse_number (getTok (splitChar ' ' line) 3) = .error er) :
    parseRow i sd ed line = .error (.fieldParseError (i + 1) line) := by
  unfold parseRow
  rw [if_neg (by omega)]
  cases h0 : parseInt? (getTok (splitChar ' ' line) 0) with
  | none => simp [coerceYear, h0, Except.bind]
  | some yr =>
    have hc0 : coerceYear i line (getTok (splitChar ' ' line) 0) = .ok yr := by
      simp [coerceYear, h0]
    rw [hc0]
    simp only [Except.bind]
    cases h1 : parse_number (getTok (splitChar ' ' line) 1) with
    | error e1 =>
      have hc1 : coerce i line (getTok (splitChar ' ' line) 1) = .error (.fieldParseError (i + 1) line) := by
        simp [coerce, h1]
      rw [hc1]
    | ok v1 =>
      have hc1 : coerce i line (getTok (splitChar ' ' line) 1) = .ok v1 := by
        simp [coerce, h1]
      rw [hc1]
      simp only [Except.bind]
      cases h2 : parse_number (getTok (splitChar ' ' line) 2) with
      | error e2 =>
        have hc2 : coerce i line (getTok (splitChar ' ' line) 2) = .error (.fieldParseError (i + 1) line) := by
          simp [coerce, h2]
        rw [hc2]
      | ok v2 =>
        have hc2 : coerce i line (getTok (splitChar ' ' line) 2) = .ok v2 := by
          simp [coerce, h2]
        rw [hc2]
        simp only [Except.bind]
        have hc3 : coerce i line (getTok (splitChar ' ' line) 3) = .error (.fieldParseError (i + 1) line) := by
          simp [coerce, h3]
        rw [hc3]

lemma parseRows_sound (sd ed : PDate) :
    ∀ (ls : List (List Char)) (i : Nat) (rs : List Row), parseRows sd ed i ls = .ok rs →
      rs.length = ls.length ∧
      ∀ j, j < ls.length → parseRow (i + j) sd ed (ls.getD j []) = .ok (rs.getD j defaultRow) := by
  intro ls
  induction ls with
  | nil =>
    intro i rs h
    simp only [parseRows] at h
    injection h with h
    subst h
    simp
  | cons l ls ih =>
    intro i rs h
    simp only [parseRows] at h
    cases hr : parseRow i sd ed l with
    | error e => rw [hr] at h; simp [Except.bind] at h
    | ok r =>
      rw [hr] at h
      simp only [Except.bind] at h
      cases hrs : parseRows sd ed (i + 1) ls with
      | error e => rw [hrs] at h; simp [Except.bind] at h
      | ok rs2 =>
        rw [hrs] at h
        simp only [Except.bind] at h
        injection h with h
        subst h
        obtain ⟨hlen, hget⟩ := ih (i + 1) rs2 hrs
        refine ⟨by simp [hlen], ?_⟩
        intro j hj
        cases j with
        | zero => simpa using hr
        | succ j2 =>
          have := hget j2 (by simpa using hj)
          simpa [Nat.add_assoc, Nat.add_comm 1 j2] using this

lemma parseRows_complete (sd ed : PDate) :
    ∀ (ls : List (List Char)) (i : Nat),
      (∀ j, j < ls.length → isOkE (parseRow (i + j) sd ed (ls.getD j [])) = true) →
      ∃ rs, parseRows sd ed i ls = .ok rs := by
  intro ls
  induction ls with
  | nil => intro i _; exact ⟨[], rfl⟩
  | cons l ls ih =>
    intro i hall
    have h0 : isOkE (parseRow i sd ed l) = true := by simpa using hall 0 (by simp)
    obtain ⟨r, hr⟩ : ∃ r, parseRow i sd ed l = .ok r := by
      cases hx : parseRow i sd ed l with
      | error e => rw [hx] at h0; simp [isOkE] at h0
      | ok r => exact ⟨r, rfl⟩
    obtain ⟨rs, hrs⟩ := ih (i + 1) (by
      intro j hj
      have := hall (j + 1) (by simpa using hj)
      simpa [Nat.add_assoc, Nat.add_comm 1 j] using this)
    refine ⟨r :: rs, ?_⟩
    simp only [parseRows]
    rw [hr]
    simp only [Except.bind]
    rw [hrs]



lemma pipeline_structure_err (text : List Char)
    (h : findSub cdMark text = none ∨ findSub entityMark text = none ∨
         ∃ s e, findSub cdMark text = some s ∧ findSub entityMark text = some e ∧ e ≤ s) :
    parse_single_page_pdf text = .error .structureError := by
  rcases h with h | h | ⟨s, e, hs, he, hle⟩
  · cases he : findSub entityMark text <;> simp [parse_single_page_pdf, h, he]
  · cases hs : findSub cdMark text <;> simp [parse_single_page_pdf, h, hs]
  · simp [parse_single_page_pdf, hs, he, hle]

lemma pipeline_format_err (text : List Char) (s e f y : Nat)
    (hcd : findSub cdMark text = some s) (hent : findSub entityMark text = some e)
    (hlt : s < e)
    (hfrom : findSub fromMark text = some f) (hyf : findSub yearFromMark text = some y)
    (htoks : (dateTokens (slice text f y)).length < 2) :
    parse_single_page_pdf text = .error .formatError := by
  simp [parse_single_page_pdf, hcd, hent, hfrom, hyf, htoks, Nat.not_le.mpr hlt]

lemma pipeline_empty_err (text : List Char) (s e f y : Nat) (d : PDate)
    (hcd : findSub cdMark text = some s) (hent : findSub entityMark text = some e)
    (hlt : s < e)
    (hfrom : findSub fromMark text = some f) (hyf : findSub yearFromMark text = some y)
    (htoks : 2 ≤ (dateTokens (slice text f y)).length)
    (hdate : parseDate (getTok (dateTokens (slice text f y)) 0) = some d)
    (hz : sectionLines text s e = []) :
    parse_single_page_pdf text = .error .emptyResultError := by
  simp [parse_single_page_pdf, hcd, hent, hfrom, hyf, Nat.not_lt.mpr htoks, Nat.not_le.mpr hlt,
    hdate, hz, parseRows]

lemma pipeline_ok_elim (text : List Char) (rs : List Row)
    (h : parse_single_page_pdf text = .ok rs) :
    ∃ s e f y d, findSub cdMark text = some s ∧ findSub entityMark text = some e ∧ s < e ∧
      findSub fromMark text = some f ∧ findSub yearFromMark text = some y ∧
      2 ≤ (dateTokens (slice text f y)).length ∧
      parseDate (getTok (dateTokens (slice text f y)) 0) = some d ∧
      parseRows d d 0 (sectionLines text s e) = .ok rs ∧ rs ≠ [] := by
  unfold parse_single_page_pdf at h
  split at h
  · next s e hcd hent =>
    split at h
    · cases h
    · next hse =>
      split at h
      · next f y hfrom hyf =>
        split at h
        · cases h
        · next hlen2 =>
          split at h
          · cases h
          · next d hdate =>
            split at h
            · cases h
            · next rows hrows =>
              split at h
              · cases h
              · next hne =>
                injection h with h
                subst h
                exact ⟨s, e, f, y, d, hcd, hent, by omega, hfrom, hyf, by omega, hdate, hrows,
                  by simpa [List.isEmpty_iff] using hne⟩
      · cases h
  · cases h


lemma splitChar_ne_nil (c : Char) (l : List Char) : splitChar c l ≠ [] := by
  induction l with
  | nil => simp [splitChar]
  | cons a r ih =>
    by_cases ha : a = c
    · simp [splitChar, ha]
    · cases hsp : splitChar c r with
      | nil => exact absurd hsp ih
      | cons t ts => simp [splitChar, ha, hsp]

lemma splitChar_sep_not_mem (c : Char) (l : List Char) :
    ∀ t ∈ splitChar c l, c ∉ t := by
  induction l with
  | nil =>
    intro t ht
    simp [splitChar] at ht
    simp [ht]
  | cons a r ih =>
    intro t ht
    by_cases ha : a = c
    · simp [splitChar, ha] at ht
      rcases ht with ht | ht
      · simp [ht]
      · exact ih t ht
    · cases hsp : splitChar c r with
      | nil => exact absurd hsp (splitChar_ne_nil c r)
      | cons t0 ts =>
        simp [splitChar, ha, hsp] at ht
        rcases ht with ht | ht
        · subst ht
          have h0 : c ∉ t0 := ih t0 (by simp [hsp])
          simp [List.mem_cons]
          exact ⟨fun hac => ha hac.symm, h0⟩
        · exact ih t (by simp [hsp, ht])

lemma splitChar_no_sep (c : Char) (l : List Char) (h : c ∉ l) : splitChar c l = [l] := by
  induction l with
  | nil => rfl
  | cons a r ih =>
    have ha : a ≠ c := fun hac => h (by simp [hac])
    have hr : c ∉ r := fun hc => h (by simp [hc])
    simp [splitChar, ha, ih hr]

lemma splitChar_append_sep (c : Char) (A B : List Char) (hA : c ∉ A) :
    splitChar c (A ++ c :: B) = A :: splitChar c B := by
  induction A with
  | nil => simp [splitChar]
  | cons a A ih =>
    have ha : a ≠ c := fun hac => hA (by simp [hac])
    have hA2 : c ∉ A := fun hc => hA (by simp [hc])
    rw [List.cons_append]
    cases hsp : splitChar c (A ++ c :: B) with
    | nil => exact absurd hsp (splitChar_ne_nil c _)
    | cons t ts =>
      have := ih hA2
      rw [hsp] at this
      injection this with h1 h2
      subst h1; subst h2
      simp [splitChar, ha, hsp]

lemma splitChar_joinChar (c : Char) (ts : List (List Char)) (hne : ts ≠ [])
    (hns : ∀ t ∈ ts, c ∉ t) : splitChar c (joinChar c ts) = ts := by
  induction ts with
  | nil => exact absurd rfl hne
  | cons t ts ih =>
    cases ts with
    | nil => exact splitChar_no_sep c t (hns t (by simp))
    | cons t2 ts2 =>
      have e1 : joinChar c (t :: t2 :: ts2) = t ++ c :: joinChar c (t2 :: ts2) := rfl
      rw [e1, splitChar_append_sep c t _ (hns t (by simp)),
        ih (by simp) (fun u hu => hns u (by simp [List.mem_cons] at hu ⊢; tauto))]

lemma getTok_take (toks : List (List Char)) (m k : Nat) (hk : k < m) :
    getTok (toks.take m) k = getTok toks k := by
  simp [getTok, List.getD_eq_getElem?_getD, List.getElem?_take, hk]


/-- C3: whenever marker "COLLECTED DISTRIBUTED" is absent, marker "ENTITY"
is absent, or the first occurrence of the former is not strictly before the
first occurrence of the latter, extraction fails with the structure error
(and in particular never with an index-out-of-range-style crash: the
pipeline is total and returns this error value). -/
theorem C3_theorem (text : List Char)
    (h : findSub cdMark text = none ∨ findSub entityMark text = none ∨
         ∃ s e, findSub cdMark text = some s ∧ findSub entityMark text = some e ∧ e ≤ s) :
    parse_single_page_pdf text = .error .structureError :=
  pipeline_structure_err text h

/-- Witness for C3: a document lacking both anchor markers fails with the
structure error. -/
theorem C3_witness :
    parse_single_page_pdf ("no markers in this page text".data) = .error .structureError :=
  C3_theorem _ (Or.inl rfl)

/-- C5: the row parser splits on single spaces and fails with the
field-count error carrying the 1-based line number and the line content
whenever fewer than 13 tokens result (in particular for a 12-token line),
while a line of 13 or more tokens whose token 3 fails numeric coercion
fails with the field-parse error carrying the line number and the raw
line. -/
theorem C5_theorem (i : Nat) (sd ed : PDate) (line : List Char) :
    ((splitChar ' ' line).length < 13 →
      parseRow i sd ed line = .error (.fieldCountError (i + 1) line)) ∧
    (∀ er, 13 ≤ (splitChar ' ' line).length →
      parse_number (getTok (splitChar ' ' line) 3) = .error er →
      parseRow i sd ed line = .error (.fieldParseError (i + 1) line)) :=
  ⟨parseRow_err_count i sd ed line,
   fun er h13 h3 => parseRow_err_parse i sd ed line er h13 h3⟩

/-- Witness for C5: a 12-token line as fifth line reports the field-count
error for line 5 with the line content, and a 13-token line whose token 3
is "abc" reports the field-parse error with the raw line. -/
theorem C5_witness :
    parseRow 4 ⟨1, 1, 2025⟩ ⟨1, 1, 2025⟩ ("1 2 3 4 5 6 7 8 9 10 11 12".data) =
      .error (.fieldCountError 5 ("1 2 3 4 5 6 7 8 9 10 11 12".data)) ∧
    parseRow 0 ⟨1, 1, 2025⟩ ⟨1, 1, 2025⟩ ("2024 1.0 2.0 abc 4 5 6 7 8 9 10 11 12".data) =
      .error (.fieldParseError 1 ("2024 1.0 2.0 abc 4 5 6 7 8 9 10 11 12".data)) :=
  ⟨(C5_theorem 4 ⟨1, 1, 2025⟩ ⟨1, 1, 2025⟩ _).1 (by decide),
   (C5_theorem 0 ⟨1, 1, 2025⟩ ⟨1, 1, 2025⟩ _).2 (.numberFormatError ("abc".data)) (by decide) rfl⟩

/-- C6: in the section normalizer dash-removal step, exactly the dashes
adjacent to another dash are removed: a run of two or more consecutive
dashes disappears entirely, while a lone dash (a negative-number indicator)
is preserved into the row parser. -/
theorem C6_theorem :
    (∀ (u v : List Char) (n : Nat), 2 ≤ n → u.getLast? ≠ some '-' → v.head? ≠ some '-' →
       rmAdjDashes (u ++ (List.replicate n '-' ++ v)) = rmAdjDashes u ++ rmAdjDashes v) ∧
    (∀ u v : List Char, u.getLast? ≠ some '-' → v.head? ≠ some '-' →
       rmAdjDashes (u ++ ('-' :: v)) = rmAdjDashes u ++ '-' :: rmAdjDashes v) :=
  ⟨fun u v n h2 hu hv => rmAdjDashes_run_removed u v n h2 hu hv,
   fun u v hu hv => rmAdjDashes_lone_kept u v hu hv⟩

/-- Witness for C6: a triple-dash run between two texts is removed while a
lone dash is kept. -/
theorem C6_witness :
    rmAdjDashes ("a 1".data ++ (List.replicate 3 '-' ++ " 2 b".data)) =
      rmAdjDashes ("a 1".data) ++ rmAdjDashes (" 2 b".data) ∧
    rmAdjDashes ("x ".data ++ ('-' :: "5 y".data)) =
      rmAdjDashes ("x ".data) ++ '-' :: rmAdjDashes ("5 y".data) :=
  ⟨C6_theorem.1 ("a 1".data) (" 2 b".data) 3 (by decide) (by decide) (by decide),
   C6_theorem.2 ("x ".data) ("5 y".data) (by decide) (by decide)⟩

/-- C9: when the anchors and the date block are valid but normalization
produces zero valid data lines, extraction fails with the empty-result
error instead of returning an empty record list. -/
theorem C9_theorem (text : List Char) (s e f y : Nat) (d : PDate)
    (hcd : findSub cdMark text = some s) (hent : findSub entityMark text = some e)
    (hlt : s < e)
    (hfrom : findSub fromMark text = some f) (hyf : findSub yearFromMark text = some y)
    (htoks : 2 ≤ (dateTokens (slice text f y)).length)
    (hdate : parseDate (getTok (dateTokens (slice text f y)) 0) = some d)
    (hz : sectionLines text s e = []) :
    parse_single_page_pdf text = .error .emptyResultError :=
  pipeline_empty_err text s e f y d hcd hent hlt hfrom hyf htoks hdate hz

/-- Witness for C9: a document with valid anchors and dates whose section
contains only the header and footer fragments yields the empty-result
error. -/
theorem C9_witness :
    parse_single_page_pdf
      (("FROM 01/24/2025 01/26/2025 YEAR FROM\nCOLLECTED DISTRIBUTED TOTL\nENTITY").data) =
      .error .emptyResultError :=
  C9_theorem _ 37 64 0 27 ⟨1, 24, 2025⟩ rfl rfl (by decide) rfl rfl (by decide) rfl rfl


/-- C1 counterexample: coercing "12-345-67" does not yield -12345.67 as the
claim states; the dashes are stripped to "1234567", so the result is
-1234567. -/
theorem C1_counterexample :
    parse_number ("12-345-67".data) = .ok ⟨-1234567, 0⟩ ∧
    Dec.toRat ⟨-1234567, 0⟩ = -1234567 ∧ ¬ ((-1234567 : ℚ) = -12345.67) :=
  ⟨rfl, by norm_num [Dec.toRat], by norm_num⟩

/-- C1 (amended): a whitespace-free token containing dashes has all dashes
stripped, the remainder parsed as a decimal magnitude and the result
negated, failing with an error naming the token when the stripped text does
not parse; in particular "12-345-67" yields -1234567 (not -12345.67) and
"123.45" yields 123.45 unchanged. -/
theorem C1_theorem :
    (∀ t : List Char, trimChars t = t → '-' ∈ t →
      ((∀ v, parseFloat? (t.filter (fun c => !(c = '-'))) = some v →
         parse_number t = .ok v.neg) ∧
       (parseFloat? (t.filter (fun c => !(c = '-'))) = none →
         parse_number t = .error (.numberFormatError t)))) ∧
    parse_number ("12-345-67".data) = .ok ⟨-1234567, 0⟩ ∧
    Dec.toRat ⟨-1234567, 0⟩ = -1234567 ∧
    parse_number ("123.45".data) = .ok ⟨12345, 2⟩ ∧
    Dec.toRat ⟨12345, 2⟩ = 123.45 := by
  refine ⟨?_, rfl, by norm_num [Dec.toRat], rfl, by norm_num [Dec.toRat]⟩
  intro t ht hd
  constructor
  · intro v hv
    simp [parse_number, ht, hd, hv]
  · intro hv
    simp [parse_number, ht, hd, hv]

/-- Witness for C1: the token "a-b" contains a dash, its dash-stripped text
"ab" does not parse, and coercion fails with an error naming the token. -/
theorem C1_witness :
    parse_number ("a-b".data) = .error (.numberFormatError ("a-b".data)) :=
  ((C1_theorem.1 ("a-b".data) rfl (by decide)).2) rfl

/-- C2: for every successfully extracted document, every produced record has
equal period start and end dates, both assigned from the same first parsed
date token (the pipeline passes the one parsed date for both fields). -/
theorem C2_theorem (text : List Char) (rs : List Row)
    (h : parse_single_page_pdf text = .ok rs) :
    ∀ r ∈ rs, r.START_DATE = r.END_DATE := by
  obtain ⟨s, e, f, y, d, -, -, -, -, -, -, -, hrows, -⟩ := pipeline_ok_elim text rs h
  intro r hr
  obtain ⟨⟨j, hj⟩, hget⟩ := List.mem_iff_get.mp hr
  obtain ⟨hlen, hall⟩ := parseRows_sound d d (sectionLines text s e) 0 rs hrows
  have hrow := hall j (by omega)
  have hv : rs.getD j defaultRow = r := by
    rw [List.getD_eq_getElem?_getD, List.getElem?_eq_getElem hj]
    simpa [List.get_eq_getElem] using hget
  rw [hv] at hrow
  obtain ⟨-, hS, hE, -⟩ := (parseRow_ok_iff _ _ _ _ _).mp hrow
  rw [← hS, ← hE]

/-- Witness for C2: the single record extracted from a concrete valid
document has equal start and end dates. -/
theorem C2_witness :
    (⟨⟨1, 24, 2025⟩, ⟨1, 24, 2025⟩, 2024, ⟨100000, 2⟩, ⟨0, 2⟩, ⟨50000, 2⟩, ⟨0, 2⟩,
      ⟨50000, 2⟩, ⟨5000, 2⟩, ⟨50000, 2⟩, ⟨1000, 2⟩, ⟨0, 2⟩, ⟨500, 2⟩, ⟨200, 2⟩,
      ⟨51700, 2⟩⟩ : Row).START_DATE =
    (⟨⟨1, 24, 2025⟩, ⟨1, 24, 2025⟩, 2024, ⟨100000, 2⟩, ⟨0, 2⟩, ⟨50000, 2⟩, ⟨0, 2⟩,
      ⟨50000, 2⟩, ⟨5000, 2⟩, ⟨50000, 2⟩, ⟨1000, 2⟩, ⟨0, 2⟩, ⟨500, 2⟩, ⟨200, 2⟩,
      ⟨51700, 2⟩⟩ : Row).END_DATE :=
  C2_theorem
    (("FROM 01/24/2025 01/26/2025 YEAR FROM\nCOLLECTED DISTRIBUTED\n2024 1000.00 0.00 500.00 0.00 500.00 50.00 500.00 10.00 0.00 5.00 2.00 517.00\nENTITY").data)
    [⟨⟨1, 24, 2025⟩, ⟨1, 24, 2025⟩, 2024, ⟨100000, 2⟩, ⟨0, 2⟩, ⟨50000, 2⟩, ⟨0, 2⟩,
      ⟨50000, 2⟩, ⟨5000, 2⟩, ⟨50000, 2⟩, ⟨1000, 2⟩, ⟨0, 2⟩, ⟨500, 2⟩, ⟨200, 2⟩,
      ⟨51700, 2⟩⟩]
    rfl _ (by simp)

/-- C4: the date extractor keeps only digits, slashes and spaces, splits on
spaces and discards empty tokens; the pipeline fails with the format error
when fewer than two tokens remain, and the date block
"FROM 01/24/2025 01/26/2025 YEAR FROM" yields exactly the two tokens
"01/24/2025" and "01/26/2025". -/
theorem C4_theorem :
    (∀ (text : List Char) (s e f y : Nat),
       findSub cdMark text = some s → findSub entityMark text = some e → s < e →
       findSub fromMark text = some f → findSub yearFromMark text = some y →
       (dateTokens (slice text f y)).length < 2 →
       parse_single_page_pdf text = .error .formatError) ∧
    dateTokens ("FROM 01/24/2025 01/26/2025 YEAR FROM".data) =
      ["01/24/2025".data, "01/26/2025".data] :=
  ⟨fun text s e f y hcd hent hlt hfrom hyf htoks =>
     pipeline_format_err text s e f y hcd hent hlt hfrom hyf htoks, rfl⟩

/-- Witness for C4: a document whose date block holds a single date fails
with the format error. -/
theorem C4_witness :
    parse_single_page_pdf
      (("FROM 01/24/2025 YEAR FROM\nCOLLECTED DISTRIBUTED\nx\nENTITY").data) =
      .error .formatError :=
  C4_theorem.1 _ 26 50 0 16 rfl rfl (by decide) rfl rfl (by decide)


/-- C7 counterexample: a document with a valid date block whose data section
holds one well-formed line followed by one malformed qualifying line does
not return a record sequence at all — extraction aborts with the
field-count error for line 2 — so "at least one well-formed line" does not
suffice for a non-empty result. -/
theorem C7_counterexample :
    (∃ r, parseRow 0 ⟨1, 24, 2025⟩ ⟨1, 24, 2025⟩
        (("2024 1000.00 0.00 500.00 0.00 500.00 50.00 500.00 10.00 0.00 5.00 2.00 517.00").data) =
        .ok r) ∧
    parse_single_page_pdf
      (("FROM 01/24/2025 01/26/2025 YEAR FROM\nCOLLECTED DISTRIBUTED\n2024 1000.00 0.00 500.00 0.00 500.00 50.00 500.00 10.00 0.00 5.00 2.00 517.00\nbadline\nENTITY").data) =
      .error (.fieldCountError 2 ("badline".data)) :=
  ⟨⟨⟨⟨1, 24, 2025⟩, ⟨1, 24, 2025⟩, 2024, ⟨100000, 2⟩, ⟨0, 2⟩, ⟨50000, 2⟩, ⟨0, 2⟩,
      ⟨50000, 2⟩, ⟨5000, 2⟩, ⟨50000, 2⟩, ⟨1000, 2⟩, ⟨0, 2⟩, ⟨500, 2⟩, ⟨200, 2⟩,
      ⟨51700, 2⟩⟩, rfl⟩, rfl⟩

/-- C7 (amended): for every document with valid anchors and date block whose
data section yields at least one qualifying line and whose qualifying lines
are all well-formed, extraction returns a non-empty sequence whose length
equals the number of qualifying lines, in document order (the j-th record
is parsed from the j-th qualifying line). -/
theorem C7_theorem (text : List Char) (s e f y : Nat) (d : PDate)
    (hcd : findSub cdMark text = some s) (hent : findSub entityMark text = some e)
    (hlt : s < e)
    (hfrom : findSub fromMark text = some f) (hyf : findSub yearFromMark text = some y)
    (htoks : 2 ≤ (dateTokens (slice text f y)).length)
    (hdate : parseDate (getTok (dateTokens (slice text f y)) 0) = some d)
    (hne : sectionLines text s e ≠ [])
    (hall : ∀ j, j < (sectionLines text s e).length →
      isOkE (parseRow j d d ((sectionLines text s e).getD j [])) = true) :
    ∃ rs, parse_single_page_pdf text = .ok rs ∧
      rs.length = (sectionLines text s e).length ∧
      ∀ j, j < (sectionLines text s e).length →
        parseRow j d d ((sectionLines text s e).getD j []) = .ok (rs.getD j defaultRow) := by
  obtain ⟨rs, hrs⟩ := parseRows_complete d d (sectionLines text s e) 0
    (fun j hj => by simpa using hall j hj)
  obtain ⟨hlen, hget⟩ := parseRows_sound d d (sectionLines text s e) 0 rs hrs
  have hrs_ne : rs.isEmpty = false := by
    rcases rs with _ | ⟨r0, rs2⟩
    · exact absurd (List.length_eq_zero.mp hlen.symm) hne
    · rfl
  refine ⟨rs, ?_, hlen, fun j hj => by simpa using hget j hj⟩
  simp [parse_single_page_pdf, hcd, hent, Nat.not_le.mpr hlt, hfrom, hyf,
    Nat.not_lt.mpr htoks, hdate, hrs, hrs_ne]

/-- Witness for C7: a concrete document with two well-formed data lines
extracts a sequence of two records in document order. -/
theorem C7_witness :
    ∃ rs, parse_single_page_pdf
        (("FROM 01/24/2025 01/26/2025 YEAR FROM\nCOLLECTED DISTRIBUTED\n2024 1000.00 0.00 500.00 0.00 500.00 50.00 500.00 10.00 0.00 5.00 2.00 517.00\n2025 1 2 3 4 5 6 7 8 9 10 11 12\nENTITY").data) =
        .ok rs ∧
      rs.length = (sectionLines
        (("FROM 01/24/2025 01/26/2025 YEAR FROM\nCOLLECTED DISTRIBUTED\n2024 1000.00 0.00 500.00 0.00 500.00 50.00 500.00 10.00 0.00 5.00 2.00 517.00\n2025 1 2 3 4 5 6 7 8 9 10 11 12\nENTITY").data) 37 169).length ∧
      ∀ j, j < (sectionLines
        (("FROM 01/24/2025 01/26/2025 YEAR FROM\nCOLLECTED DISTRIBUTED\n2024 1000.00 0.00 500.00 0.00 500.00 50.00 500.00 10.00 0.00 5.00 2.00 517.00\n2025 1 2 3 4 5 6 7 8 9 10 11 12\nENTITY").data) 37 169).length →
        parseRow j ⟨1, 24, 2025⟩ ⟨1, 24, 2025⟩
          ((sectionLines
            (("FROM 01/24/2025 01/26/2025 YEAR FROM\nCOLLECTED DISTRIBUTED\n2024 1000.00 0.00 500.00 0.00 500.00 50.00 500.00 10.00 0.00 5.00 2.00 517.00\n2025 1 2 3 4 5 6 7 8 9 10 11 12\nENTITY").data) 37 169).getD j []) =
          .ok (rs.getD j defaultRow) :=
  C7_theorem _ 37 169 0 27 ⟨1, 24, 2025⟩ rfl rfl (by decide) rfl rfl (by decide) rfl
    (by decide) (by decide)

/-- C10: a normalized line that splits into strictly more than 13 tokens is
accepted or rejected exactly as the line made of its first 13 tokens is,
and produces the same record when accepted: tokens past index 12 are
silently ignored. -/
theorem C10_theorem (i : Nat) (sd ed : PDate) (line : List Char)
    (h : 13 < (splitChar ' ' line).length) (r : Row) :
    parseRow i sd ed line = .ok r ↔
      parseRow i sd ed (joinChar ' ' ((splitChar ' ' line).take 13)) = .ok r := by
  have hns : ∀ t ∈ (splitChar ' ' line).take 13, (' ' : Char) ∉ t :=
    fun t ht => splitChar_sep_not_mem ' ' line t (List.mem_of_mem_take ht)
  have hlen13 : ((splitChar ' ' line).take 13).length = 13 := by
    simp [List.length_take]
    omega
  have hne : (splitChar ' ' line).take 13 ≠ [] := by
    intro h0
    rw [h0] at hlen13
    simp at hlen13
  have hsplit := splitChar_joinChar ' ' _ hne hns
  rw [parseRow_ok_iff, parseRow_ok_iff, hsplit, hlen13]
  rw [getTok_take _ 13 0 (by omega), getTok_take _ 13 1 (by omega), getTok_take _ 13 2 (by omega),
    getTok_take _ 13 3 (by omega), getTok_take _ 13 4 (by omega), getTok_take _ 13 5 (by omega),
    getTok_take _ 13 6 (by omega), getTok_take _ 13 7 (by omega), getTok_take _ 13 8 (by omega),
    getTok_take _ 13 9 (by omega), getTok_take _ 13 10 (by omega), getTok_take _ 13 11 (by omega),
    getTok_take _ 13 12 (by omega)]
  constructor
  · rintro ⟨-, h2, h3, h4, h5, h6, h7, h8, h9, h10, h11, h12, h13, h14, h15, h16⟩
    exact ⟨by omega, h2, h3, h4, h5, h6, h7, h8, h9, h10, h11, h12, h13, h14, h15, h16⟩
  · rintro ⟨-, h2, h3, h4, h5, h6, h7, h8, h9, h10, h11, h12, h13, h14, h15, h16⟩
    exact ⟨by omega, h2, h3, h4, h5, h6, h7, h8, h9, h10, h11, h12, h13, h14, h15, h16⟩

/-- Witness for C10: a 15-token line parses to the same record as its first
13 tokens. -/
theorem C10_witness :
    parseRow 0 ⟨1, 24, 2025⟩ ⟨1, 24, 2025⟩
        ("2024 1 2 3 4 5 6 7 8 9 10 11 12 98 99".data) =
      .ok ⟨⟨1, 24, 2025⟩, ⟨1, 24, 2025⟩, 2024, ⟨1, 0⟩, ⟨2, 0⟩, ⟨3, 0⟩, ⟨4, 0⟩, ⟨5, 0⟩,
        ⟨6, 0⟩, ⟨7, 0⟩, ⟨8, 0⟩, ⟨9, 0⟩, ⟨10, 0⟩, ⟨11, 0⟩, ⟨12, 0⟩⟩ ↔
    parseRow 0 ⟨1, 24, 2025⟩ ⟨1, 24, 2025⟩
        (joinChar ' ' ((splitChar ' ' ("2024 1 2 3 4 5 6 7 8 9 10 11 12 98 99".data)).take 13)) =
      .ok ⟨⟨1, 24, 2025⟩, ⟨1, 24, 2025⟩, 2024, ⟨1, 0⟩, ⟨2, 0⟩, ⟨3, 0⟩, ⟨4, 0⟩, ⟨5, 0⟩,
        ⟨6, 0⟩, ⟨7, 0⟩, ⟨8, 0⟩, ⟨9, 0⟩, ⟨10, 0⟩, ⟨11, 0⟩, ⟨12, 0⟩⟩ :=
  C10_theorem 0 ⟨1, 24, 2025⟩ ⟨1, 24, 2025⟩ _ (by decide) _


lemma digit?_digitChar (d : Nat) (hd : d < 10) : digit? (Nat.digitChar d) = some d := by
  interval_cases d <;> rfl

lemma parseNatAux_append (acc : Nat) (A B : List Char) :
    parseNatAux acc (A ++ B) =
      match parseNatAux acc A with
      | some a => parseNatAux a B
      | none => none := by
  induction A generalizing acc with
  | nil => rfl
  | cons c r ih =>
    simp only [List.cons_append, parseNatAux]
    cases digit? c with
    | none => rfl
    | some d => exact ih (acc * 10 + d)

lemma parseNatAux_renderNatAux :
    ∀ (fuel n acc : Nat), n < 10 ^ fuel →
      parseNatAux acc (renderNatAux fuel n) =
        some (acc * 10 ^ (renderNatAux fuel n).length + n) := by
  intro fuel
  induction fuel with
  | zero =>
    intro n acc hn
    interval_cases n
    simp [renderNatAux, parseNatAux]
  | succ f ih =>
    intro n acc hn
    by_cases hn0 : n = 0
    · simp [renderNatAux, hn0, parseNatAux]
    · have hdiv : n / 10 < 10 ^ f := by
        apply Nat.div_lt_of_lt_mul
        calc n < 10 ^ (f + 1) := hn
        _ = 10 * 10 ^ f := by ring
      have e1 : renderNatAux (f + 1) n = renderNatAux f (n / 10) ++ [Nat.digitChar (n % 10)] := by
        simp [renderNatAux, hn0]
      rw [e1, parseNatAux_append, ih (n / 10) acc hdiv]
      have hm : n % 10 < 10 := Nat.mod_lt n (by norm_num)
      simp only [parseNatAux, digit?_digitChar (n % 10) hm, List.length_append,
        List.length_singleton]
      congr 1
      have := Nat.div_add_mod n 10
      ring_nf
      omega

lemma parseNatAux0_renderNat (n : Nat) : parseNatAux 0 (renderNat n) = some n := by
  by_cases hn : n = 0
  · subst hn
    rfl
  · have hlt : n < 10 ^ (n + 1) :=
      lt_of_lt_of_le (Nat.lt_pow_self (by norm_num) n) (Nat.pow_le_pow_right (by norm_num) (by omega))
    simp only [renderNat, hn, if_false]
    rw [parseNatAux_renderNatAux (n + 1) n 0 hlt]
    simp

lemma renderNat_ne_nil (n : Nat) : renderNat n ≠ [] := by
  by_cases hn : n = 0
  · simp [renderNat, hn]
  · have h1 : 1 ≤ n := by omega
    simp only [renderNat, hn, if_false]
    cases hf : renderNatAux (n + 1) n with
    | nil =>
      exfalso
      have : renderNatAux (n + 1) n = renderNatAux n (n / 10) ++ [Nat.digitChar (n % 10)] := by
        simp [renderNatAux, hn]
      rw [this] at hf
      simp at hf
    | cons c r => simp

lemma parseNatDigits_renderNat (n : Nat) : parseNatDigits (renderNat n) = some n := by
  simp only [parseNatDigits, renderNat_ne_nil n, if_false]
  exact parseNatAux0_renderNat n

lemma renderNatAux_digits :
    ∀ (fuel n : Nat) (c : Char), c ∈ renderNatAux fuel n → (digit? c).isSome = true := by
  intro fuel
  induction fuel with
  | zero => intro n c hc; simp [renderNatAux] at hc
  | succ f ih =>
    intro n c hc
    by_cases hn : n = 0
    · simp [renderNatAux, hn] at hc
    · simp only [renderNatAux, hn, if_false, List.mem_append, List.mem_singleton] at hc
      rcases hc with hc | hc
      · exact ih (n / 10) c hc
      · subst hc
        rw [digit?_digitChar (n % 10) (Nat.mod_lt n (by omega))]
        rfl

lemma renderNat_digits (n : Nat) (c : Char) (hc : c ∈ renderNat n) : (digit? c).isSome = true := by
  by_cases hn : n = 0
  · simp [renderNat, hn] at hc
    subst hc
    rfl
  · simp only [renderNat, hn, if_false] at hc
    exact renderNatAux_digits (n + 1) n c hc

lemma digit_not_special (c : Char) (h : (digit? c).isSome = true) :
    c ≠ '-' ∧ c ≠ '+' ∧ c ≠ '.' ∧ c ≠ ' ' ∧ isSpc c = false := by
  have hb : '0' ≤ c ∧ c ≤ '9' := by
    by_contra hnb
    simp [digit?, hnb] at h
  obtain ⟨h0, h9⟩ := hb
  have hne : ∀ x : Char, x < '0' → c ≠ x := by
    intro x hx hcx
    subst hcx
    exact absurd h0 (not_le.mpr hx)
  refine ⟨hne _ (by decide), hne _ (by decide), hne _ (by decide), hne _ (by decide), ?_⟩
  by_contra hs
  have hs2 : isSpc c = true := by
    cases hx : isSpc c
    · exact absurd hx hs
    · rfl
  simp only [isSpc, Bool.or_eq_true, decide_eq_true_eq] at hs2
  rcases hs2 with ((((hx | hx) | hx) | hx) | hx) | hx <;> subst hx <;> exact absurd h (by decide)


lemma renderNatAux_length :
    ∀ (fuel n k : Nat), n < 10 ^ k → (renderNatAux fuel n).length ≤ k := by
  intro fuel
  induction fuel with
  | zero => intro n k _; simp [renderNatAux]
  | succ f ih =>
    intro n k hn
    by_cases hn0 : n = 0
    · simp [renderNatAux, hn0]
    · have hk : k ≠ 0 := by
        intro hk0
        subst hk0
        simp at hn
        omega
      have hdiv : n / 10 < 10 ^ (k - 1) := by
        apply Nat.div_lt_of_lt_mul
        calc n < 10 ^ k := hn
        _ = 10 * 10 ^ (k - 1) := by
              conv_lhs => rw [show k = (k - 1) + 1 by omega]
              rw [pow_succ]
              ring
      have := ih (n / 10) (k - 1) hdiv
      simp only [renderNatAux, hn0, if_false, List.length_append, List.length_singleton]
      omega

lemma renderNat_length_le (f k : Nat) (hk : 1 ≤ k) (hf : f < 10 ^ k) :
    (renderNat f).length ≤ k := by
  by_cases hf0 : f = 0
  · simp [renderNat, hf0]
    omega
  · simp only [renderNat, hf0, if_false]
    exact renderNatAux_length (f + 1) f k hf

lemma padZeros_length (k : Nat) (l : List Char) (h : l.length ≤ k) :
    (padZeros k l).length = k := by
  simp [padZeros]
  omega

lemma parseNatAux_zeros (L : List Char) :
    ∀ j, parseNatAux 0 (List.replicate j '0' ++ L) = parseNatAux 0 L := by
  intro j
  induction j with
  | zero => simp
  | succ m ih =>
    have e : List.replicate (m + 1) '0' ++ L = '0' :: (List.replicate m '0' ++ L) := by
      simp [List.replicate_succ]
    rw [e]
    simpa [parseNatAux, digit?] using ih

lemma padZeros_ne_nil (k : Nat) (l : List Char) (h : l ≠ []) : padZeros k l ≠ [] := by
  simp [padZeros, h]

lemma parseNatDigits_padZeros_renderNat (k f : Nat) :
    parseNatDigits (padZeros k (renderNat f)) = some f := by
  simp only [parseNatDigits, padZeros_ne_nil k _ (renderNat_ne_nil f), if_false]
  simp only [padZeros]
  rw [parseNatAux_zeros, parseNatAux0_renderNat]

lemma padZeros_digits (k : Nat) (l : List Char) (hl : ∀ c ∈ l, (digit? c).isSome = true) :
    ∀ c ∈ padZeros k l, (digit? c).isSome = true := by
  intro c hc
  simp only [padZeros, List.mem_append, List.mem_replicate] at hc
  rcases hc with ⟨-, hc⟩ | hc
  · subst hc
    rfl
  · exact hl c hc

lemma renderDecMag_chars (m s : Nat) (c : Char) (hc : c ∈ renderDecMag m s) :
    (digit? c).isSome = true ∨ c = '.' := by
  by_cases hs : s = 0
  · exact Or.inl (renderNat_digits m c (by simpa [renderDecMag, hs] using hc))
  · simp only [renderDecMag, hs, if_false, List.mem_append, List.mem_cons] at hc
    rcases hc with hc | hc | hc
    · exact Or.inl (renderNat_digits _ c hc)
    · exact Or.inr hc
    · exact Or.inl (padZeros_digits s _ (fun u hu => renderNat_digits _ u hu) c hc)

lemma renderDecMag_no_dash (m s : Nat) : ('-' : Char) ∉ renderDecMag m s := by
  intro hc
  rcases renderDecMag_chars m s _ hc with h | h
  · exact absurd rfl (digit_not_special _ h).1
  · exact absurd h (by decide)

lemma renderDecMag_no_space (m s : Nat) : (' ' : Char) ∉ renderDecMag m s := by
  intro hc
  rcases renderDecMag_chars m s _ hc with h | h
  · exact absurd rfl (digit_not_special _ h).2.2.2.1
  · exact absurd h (by decide)

lemma renderDecMag_no_spc (m s : Nat) (c : Char) (hc : c ∈ renderDecMag m s) :
    isSpc c = false := by
  rcases renderDecMag_chars m s c hc with h | h
  · exact (digit_not_special _ h).2.2.2.2
  · subst h
    rfl

lemma renderNat_no_dot (n : Nat) : ('.' : Char) ∉ renderNat n := by
  intro hc
  exact absurd rfl (digit_not_special _ (renderNat_digits n _ hc)).2.2.1

lemma padZeros_no_dot (k : Nat) (l : List Char) (hl : ('.' : Char) ∉ l) :
    ('.' : Char) ∉ padZeros k l := by
  intro hc
  simp only [padZeros, List.mem_append, List.mem_replicate] at hc
  rcases hc with ⟨-, hc⟩ | hc
  · exact absurd hc (by decide)
  · exact hl hc

lemma parseUnsigned_renderNat (m : Nat) : parseUnsigned (renderNat m) = some ⟨(m : Int), 0⟩ := by
  have hsp : splitChar '.' (renderNat m) = [renderNat m] :=
    splitChar_no_sep '.' _ (renderNat_no_dot m)
  simp [parseUnsigned, hsp, parseNatDigits_renderNat]

lemma parseUnsigned_renderDecMag (m s : Nat) :
    parseUnsigned (renderDecMag m s) = some ⟨(m : Int), s⟩ := by
  by_cases hs : s = 0
  · subst hs
    simp [renderDecMag, parseUnsigned_renderNat]
  · have hs1 : 1 ≤ s := by omega
    have hmod : m % 10 ^ s < 10 ^ s := Nat.mod_lt m (by positivity)
    have hflen : (padZeros s (renderNat (m % 10 ^ s))).length = s :=
      padZeros_length s _ (renderNat_length_le _ s hs1 hmod)
    have hsp : splitChar '.' (renderDecMag m s) =
        [renderNat (m / 10 ^ s), padZeros s (renderNat (m % 10 ^ s))] := by
      simp only [renderDecMag, hs, if_false]
      rw [splitChar_append_sep '.' _ _ (renderNat_no_dot _),
        splitChar_no_sep '.' _ (padZeros_no_dot s _ (renderNat_no_dot _))]
    simp only [parseUnsigned, hsp]
    rw [if_neg (by simp [renderNat_ne_nil])]
    rw [if_neg (renderNat_ne_nil _), if_neg (padZeros_ne_nil s _ (renderNat_ne_nil _))]
    rw [parseNatDigits_renderNat, parseNatDigits_padZeros_renderNat]
    simp only [Option.some.injEq]
    rw [hflen]
    congr 1
    have hN : m / 10 ^ s * 10 ^ s + m % 10 ^ s = m := by
      rw [Nat.mul_comm]
      exact Nat.div_add_mod m (10 ^ s)
    exact_mod_cast hN

lemma renderDecMag_head_digit (m s : Nat) :
    ∃ c r, renderDecMag m s = c :: r ∧ (digit? c).isSome = true := by
  have hne : renderDecMag m s ≠ [] := by
    by_cases hs : s = 0
    · simpa [renderDecMag, hs] using renderNat_ne_nil m
    · simp [renderDecMag, hs, renderNat_ne_nil]
  cases hh : renderDecMag m s with
  | nil => exact absurd hh hne
  | cons c r =>
    refine ⟨c, r, rfl, ?_⟩
    rcases renderDecMag_chars m s c (by simp [hh]) with h | h
    · exact h
    · subst h
      exfalso
      by_cases hs : s = 0
      · have : ('.' : Char) ∈ renderNat m := by
          rw [← show renderDecMag m 0 = renderNat m from by simp [renderDecMag]]
          rw [hs] at hh
          simp [hh]
        exact renderNat_no_dot m this
      · have hx : ('.' : Char) ∈ renderNat (m / 10 ^ s) ∨ True := Or.inr trivial
        have : renderDecMag m s = renderNat (m / 10 ^ s) ++ '.' :: padZeros s (renderNat (m % 10 ^ s)) := by
          simp [renderDecMag, hs]
        rw [this] at hh
        cases hrn : renderNat (m / 10 ^ s) with
        | nil => exact absurd hrn (renderNat_ne_nil _)
        | cons c0 r0 =>
          rw [hrn] at hh
          simp at hh
          obtain ⟨hc0, -⟩ := hh
          have : ('.' : Char) ∈ renderNat (m / 10 ^ s) := by
            rw [hrn, hc0]
            simp
          exact renderNat_no_dot _ this

lemma parseFloat?_renderDecMag (m s : Nat) :
    parseFloat? (renderDecMag m s) = some ⟨(m : Int), s⟩ := by
  obtain ⟨c, r, hcr, hcd⟩ := renderDecMag_head_digit m s
  obtain ⟨hd1, hd2, -, -, -⟩ := digit_not_special c hcd
  rw [hcr]
  simp only [parseFloat?, hd1, hd2, if_false]
  rw [← hcr, parseUnsigned_renderDecMag]


lemma dropWhile_of_no (p : Char → Bool) (l : List Char) (h : ∀ c ∈ l, p c = false) :
    l.dropWhile p = l := by
  cases l with
  | nil => rfl
  | cons a r => simp [List.dropWhile_cons, h a (by simp)]

lemma trimChars_of_no_spc (l : List Char) (h : ∀ c ∈ l, isSpc c = false) :
    trimChars l = l := by
  unfold trimChars
  rw [dropWhile_of_no isSpc l h,
    dropWhile_of_no isSpc l.reverse (fun c hc => h c (List.mem_reverse.mp hc)),
    List.reverse_reverse]

lemma renderDec_no_spc (d : Dec) (c : Char) (hc : c ∈ renderDec d) : isSpc c = false := by
  by_cases hneg : d.num < 0
  · simp only [renderDec, hneg, if_true, List.mem_cons] at hc
    rcases hc with hc | hc
    · subst hc
      rfl
    · exact renderDecMag_no_spc _ _ c hc
  · simp only [renderDec, hneg, if_false] at hc
    exact renderDecMag_no_spc _ _ c hc

lemma renderDec_no_space (d : Dec) : (' ' : Char) ∉ renderDec d := by
  intro hc
  have := renderDec_no_spc d ' ' hc
  simp [isSpc] at this

lemma parse_number_renderDec (d : Dec) : parse_number (renderDec d) = .ok d := by
  have htrim : trimChars (renderDec d) = renderDec d :=
    trimChars_of_no_spc _ (renderDec_no_spc d)
  by_cases hneg : d.num < 0
  · have hmag : renderDec d = '-' :: renderDecMag d.num.natAbs d.scale := by
      simp [renderDec, hneg]
    have hmem : ('-' : Char) ∈ renderDec d := by
      rw [hmag]
      simp
    have hfil : (renderDec d).filter (fun c => !(c = '-')) = renderDecMag d.num.natAbs d.scale := by
      rw [hmag]
      simp only [List.filter_cons, decide_eq_true_eq]
      rw [if_neg (by simp)]
      apply List.filter_eq_self.mpr
      intro c hc
      simp only [Bool.not_eq_eq_eq_not, Bool.not_true, decide_eq_false_iff_not]
      intro hcd
      subst hcd
      exact renderDecMag_no_dash _ _ hc
    simp only [parse_number, htrim, if_pos hmem, hfil, parseFloat?_renderDecMag]
    have : Dec.neg ⟨(d.num.natAbs : Int), d.scale⟩ = d := by
      simp only [Dec.neg]
      have : -((d.num.natAbs : Int)) = d.num := by omega
      rw [this]
    rw [this]
  · have hmag : renderDec d = renderDecMag d.num.natAbs d.scale := by
      simp [renderDec, hneg]
    rw [hmag] at htrim
    have hmem : ('-' : Char) ∉ renderDecMag d.num.natAbs d.scale :=
      renderDecMag_no_dash _ _
    rw [hmag]
    simp only [parse_number, htrim, if_neg hmem, parseFloat?_renderDecMag]
    have h2 : ((d.num.natAbs : Int)) = d.num := by omega
    rw [h2]

lemma renderInt_no_space (z : Int) : (' ' : Char) ∉ renderInt z := by
  intro hc
  by_cases hz : z < 0
  · simp only [renderInt, hz, if_true, List.mem_cons] at hc
    rcases hc with hc | hc
    · exact absurd hc (by decide)
    · exact absurd rfl (digit_not_special _ (renderNat_digits _ _ hc)).2.2.2.1
  · simp only [renderInt, hz, if_false] at hc
    exact absurd rfl (digit_not_special _ (renderNat_digits _ _ hc)).2.2.2.1

lemma parseInt?_renderNat (n : Nat) : parseInt? (renderNat n) = some (n : Int) := by
  cases hrn : renderNat n with
  | nil => exact absurd hrn (renderNat_ne_nil n)
  | cons c r =>
    have hcd : (digit? c).isSome = true := renderNat_digits n c (by simp [hrn])
    obtain ⟨hd1, hd2, -, -, -⟩ := digit_not_special c hcd
    simp only [parseInt?, hd1, hd2, if_false]
    rw [← hrn, parseNatDigits_renderNat]
    rfl

lemma parseInt?_renderInt (z : Int) : parseInt? (renderInt z) = some z := by
  by_cases hz : z < 0
  · have e : renderInt z = '-' :: renderNat z.natAbs := by
      simp [renderInt, hz]
    have e2 : parseInt? ('-' :: renderNat z.natAbs) =
        (parseNatDigits (renderNat z.natAbs)).map (fun n => -(n : Int)) := rfl
    rw [e, e2, parseNatDigits_renderNat]
    have e3 : (some z.natAbs).map (fun n => -(n : Int)) = some (-(z.natAbs : Int)) := rfl
    rw [e3]
    have e4 : -((z.natAbs : Int)) = z := by omega
    rw [e4]
  · have e : renderInt z = renderNat z.natAbs := by
      simp [renderInt, hz]
    rw [e, parseInt?_renderNat]
    congr 1
    omega


/-- C8: formatting a record's fields back into a line in the same token
order (fiscal year then the 11 decimal fields, each decimal rendered at its
own scale, negatives with a leading minus sign) and re-parsing that line
with the row parser yields the record back exactly — the same fiscal year
and the same decimal field values, with no rounding error in this exact
decimal model. -/
theorem C8_theorem (i : Nat) (r : Row) :
    parseRow i r.START_DATE r.END_DATE (renderRowLine r) = .ok r := by
  have htoks : ∀ t ∈ [renderInt r.YEAR, renderDec r.BEGINNING_TAX_BALANCE,
      renderDec r.TAX_ADJUSTMENT, renderDec r.BASE_TAX_COLLECTED, renderDec r.REVERSALS,
      renderDec r.NET_BASE_TAX_COLLECTED, renderDec r.PERCENT_COLLECTED,
      renderDec r.ENDING_TAX_BALANCE, renderDec r.PROPERTY_AND_INSURANCE_COLLECTED,
      renderDec r.PROPERTY_AND_INSURANCE_REVERSALS, renderDec r.LOCAL_REAL_PROPERTY_COLLECTED,
      renderDec r.OTHER_PENALTY_COLLECTED, renderDec r.TOTAL_DISTRIBUTED],
      (' ' : Char) ∉ t := by
    intro t ht
    simp only [List.mem_cons, List.not_mem_nil, or_false] at ht
    rcases ht with h | h | h | h | h | h | h | h | h | h | h | h | h <;> subst h <;>
      first
        | exact renderInt_no_space _
        | exact renderDec_no_space _
  have hsplit : splitChar ' ' (renderRowLine r) =
      [renderInt r.YEAR, renderDec r.BEGINNING_TAX_BALANCE,
       renderDec r.TAX_ADJUSTMENT, renderDec r.BASE_TAX_COLLECTED, renderDec r.REVERSALS,
       renderDec r.NET_BASE_TAX_COLLECTED, renderDec r.PERCENT_COLLECTED,
       renderDec r.ENDING_TAX_BALANCE, renderDec r.PROPERTY_AND_INSURANCE_COLLECTED,
       renderDec r.PROPERTY_AND_INSURANCE_REVERSALS, renderDec r.LOCAL_REAL_PROPERTY_COLLECTED,
       renderDec r.OTHER_PENALTY_COLLECTED, renderDec r.TOTAL_DISTRIBUTED] :=
    splitChar_joinChar ' ' _ (by simp) htoks
  rw [parseRow_ok_iff, hsplit]
  refine ⟨by simp, rfl, rfl, ?_, ?_, ?_, ?_, ?_, ?_, ?_, ?_, ?_, ?_, ?_, ?_, ?_⟩ <;>
    simp [getTok, parseInt?_renderInt, parse_number_renderDec]

end TDP
